import Mathlib

/-!
Verification of the superstruct coercion core.

The development shallowly embeds the JavaScript value universe and the
`Struct` abstraction, then translates the coercion combinators of
`src/structs/coercions.ts` (`coerce`, `defaulted`, `masked`, `trimmed`)
into Lean and proves the specified properties about them.

The `Struct` class itself, the `is` entry point, the type constructor
catalogue (`string`, `number`, `unknown`, `map`) and the `isPlainObject`
utility are consumed by the coercion core through a narrow interface and
are not part of the translated source tree; those are modelled from the
spec, as marked on each definition.
-/

namespace Superstruct

/-- The universe of JavaScript runtime values handled by the library:
`undefined`, `null`, booleans, numbers (integral values suffice for every
property considered here), strings, plain objects (own enumerable key/value
pairs in insertion order) and arrays. The model is prototype-free: an
object owns exactly the listed keys. -/
inductive JSValue where
  | undef : JSValue
  | null : JSValue
  | bool : Bool → JSValue
  | num : Int → JSValue
  | str : String → JSValue
  | obj : List (String × JSValue) → JSValue
  | arr : List JSValue → JSValue

namespace JSValue

/-- The JavaScript strict comparison `x === undefined`. -/
def isUndefined : JSValue → Bool
  | .undef => true
  | _ => false

/-- Whether a value is a string primitive (`typeof x === "string"`). -/
def isString : JSValue → Bool
  | .str _ => true
  | _ => false

/-- Whether a value is a number primitive (`typeof x === "number"`). -/
def isNumber : JSValue → Bool
  | .num _ => true
  | _ => false

/-- The JavaScript `typeof` operator. Note `typeof null` and
`typeof` of an array are both `"object"`. -/
def typeof : JSValue → String
  | .undef => "undefined"
  | .null => "object"
  | .bool _ => "boolean"
  | .num _ => "number"
  | .str _ => "string"
  | .obj _ => "object"
  | .arr _ => "object"

/-- The JavaScript loose comparison `x == null`, true exactly for `null`
and `undefined`. -/
def looseNull : JSValue → Bool
  | .null => true
  | .undef => true
  | _ => false

end JSValue

/-- Modelled from the spec: the `isPlainObject` utility of `src/utils.ts`
(not in the source tree). Per the spec it accepts plain key/value records
and excludes arrays, class instances and `null`. In this value model the
plain records are exactly the `obj` values. -/
def isPlainObject : JSValue → Bool
  | .obj _ => true
  | _ => false

/-- Lookup of a property on an association list of own fields, as JavaScript
property access: an absent key reads as `undefined`. -/
def getKey : List (String × JSValue) → String → JSValue
  | [], _ => .undef
  | (k, v) :: rest, key => if k == key then v else getKey rest key

/-- Whether a key is among the own keys of an association list. -/
def hasKeyList (fields : List (String × JSValue)) (key : String) : Bool :=
  fields.any (fun p => p.1 == key)

/-- JavaScript property assignment `o[key] = v` on the own-field list:
replaces the value of an existing key in place, appends a fresh key at the
end (insertion order). -/
def setKey : List (String × JSValue) → String → JSValue → List (String × JSValue)
  | [], key, v => [(key, v)]
  | (k, w) :: rest, key, v =>
    if k == key then (k, v) :: rest else (k, w) :: setKey rest key v

/-- The own fields of an object value (empty for every other value). -/
def objFields : JSValue → List (String × JSValue)
  | .obj fields => fields
  | _ => []

/-- The keys enumerated by a `for key in x` loop: an object's own keys in
order; for an array, the element indices as strings (`length` is not
enumerable). Other values enumerate nothing. -/
def jsKeys : JSValue → List String
  | .obj fields => fields.map (fun p => p.1)
  | .arr elems => (List.range elems.length).map (fun i => toString i)
  | _ => []

/-- The JavaScript `key in x` test on the value model (prototype-free):
an object's own keys; for an array, the index strings together with the
own property `length`. -/
def hasKey : JSValue → String → Bool
  | .obj fields, key => hasKeyList fields key
  | .arr elems, key =>
    key == "length" || ((List.range elems.length).map (fun i => toString i)).contains key
  | _, _ => false

/-- Property read `x[key]` on the value model, matching `hasKey`. -/
def getProp : JSValue → String → JSValue
  | .obj fields, key => getKey fields key
  | .arr elems, key =>
    if key == "length" then .num elems.length
    else
      match ((List.range elems.length).map (fun i => toString i)).findIdx? (fun k => k == key) with
      | some i => elems.getD i .undef
      | none => .undef
  | _, _ => (JSValue.undef)

/-- Modelled from the spec: the `Struct` value object of `src/struct.ts`
(not in the source tree). Per the spec it is an immutable record holding a
`type` tag, a `schema` descriptor, a `coercer` (default: identity) and a
`validator`. The validator is modelled as a boolean predicate (the
validate-only outcome); the schema descriptor is modelled as a JS value
whose nested child structs appear as opaque placeholder values, since the
coercion core only consumes key membership of the schema. -/
structure Struct where
  type : String := ""
  schema : JSValue := .undef
  coercer : JSValue → JSValue := fun v => v
  validator : JSValue → Bool := fun _ => true

/-- Modelled from the spec: `is(value, struct)` of `src/struct.ts` (not in
the source tree) is the pure validity check that ignores coercion and
returns a boolean. -/
def is (value : JSValue) (struct : Struct) : Bool :=
  struct.validator value

/-- Modelled from the spec: the `unknown()` type constructor of
`src/structs/types.ts` (not in the source tree); its guard matches any
value. -/
def unknown : Struct :=
  { type := "unknown", schema := .undef, validator := fun _ => true }

/-- Modelled from the spec: the `string()` type constructor of
`src/structs/types.ts` (not in the source tree); it matches only
string-typed values. -/
def string : Struct :=
  { type := "string", schema := .undef, validator := JSValue.isString }

/-- Modelled from the spec: the `number()` type constructor of
`src/structs/types.ts` (not in the source tree); it matches only
number-typed values. -/
def number : Struct :=
  { type := "number", schema := .undef, validator := JSValue.isNumber }

/-- Modelled from the spec: the `map(K, V)` container constructor of
`src/structs/types.ts` (not in the source tree). Its type tag is
`Map<K,V>`; its validator accepts only JavaScript `Map` instances, which
are not representable in this value model, so over this universe every
value is rejected. -/
def map (K V : Struct) : Struct :=
  { type := "Map<" ++ K.type ++ "," ++ V.type ++ ">",
    schema := .undef,
    validator := fun _ => false }

/-- `coerce(struct, condition, coercer)` of `src/structs/coercions.ts`:
wraps the struct's previous coercer; the new coercer transforms the value
with `coercer` when it validates against `condition` (via `is`), then
passes the result to the previous coercer. -/
def coerce (struct : Struct) (condition : Struct) (coercer : JSValue → JSValue) : Struct :=
  let fn := struct.coercer
  { struct with
    coercer := fun value =>
      if is value condition then fn (coercer value) else fn value }

/-- The fallback argument of `defaulted`: either a plain value or a
zero-argument function producing the fallback. -/
inductive Fallback where
  | value : JSValue → Fallback
  | fn : (Unit → JSValue) → Fallback

/-- `typeof fallback === "function" ? fallback() : fallback`. -/
def resolveFallback : Fallback → JSValue
  | .value v => v
  | .fn f => f ()

/-- The options record of `defaulted`, with `strict` defaulting to false. -/
structure DefaultedOptions where
  strict : Bool := false

/-- The `for (const key in f)` loop of `defaulted`: for each key of the
fallback `f` whose value in `ret` reads as `undefined`, assigns `f[key]`
into `ret` and records that something changed. -/
def defaultedLoop (f : List (String × JSValue)) (ret : List (String × JSValue)) :
    List (String × JSValue) → Bool → List (String × JSValue) × Bool
  | [], changed => (ret, changed)
  | (key, _) :: rest, changed =>
    if (getKey ret key).isUndefined then
      defaultedLoop f (setKey ret key (getKey f key)) rest true
    else
      defaultedLoop f ret rest changed

/-- `defaulted(S, fallback, options)` of `src/structs/coercions.ts`: wraps
`S` with the always-true `unknown()` guard; the transform resolves the
fallback, returns it when the value is exactly `undefined`, and otherwise,
outside strict mode and when both sides are plain objects, fills the
fallback's keys into a shallow copy of the value (`{ ...x }`), returning
the copy only when at least one key changed. -/
def defaulted (S : Struct) (fallback : Fallback) (options : DefaultedOptions) : Struct :=
  let strict := options.strict
  coerce S unknown (fun x =>
    let f := resolveFallback fallback
    if x.isUndefined then f
    else if !strict && isPlainObject x && isPlainObject f then
      let p := defaultedLoop (objFields f) (objFields x) (objFields f) false
      if p.2 then JSValue.obj p.1 else x
    else x)

/-- The `for (const key in struct.schema)` loop of `masked`: builds a fresh
object holding, for each schema key present in `x`, the property `x[key]`. -/
def maskedLoop (x : JSValue) (ret : List (String × JSValue)) :
    List String → List (String × JSValue)
  | [] => ret
  | key :: rest =>
    if hasKey x key then maskedLoop x (setKey ret key (getProp x key)) rest
    else maskedLoop x ret rest

/-- `masked(struct)` of `src/structs/coercions.ts`: wraps with the
always-true `unknown()` guard; the transform passes `x` through unchanged
when `struct.schema` or `x` is not a non-null object, and otherwise builds
a fresh object from the schema keys present in `x`. -/
def masked (struct : Struct) : Struct :=
  coerce struct unknown (fun x =>
    if struct.schema.typeof != "object" || struct.schema.looseNull
        || x.typeof != "object" || x.looseNull then
      x
    else
      JSValue.obj (maskedLoop x [] (jsKeys struct.schema)))

/-- The JavaScript `String.prototype.trim` builtin: removes leading and
trailing whitespace characters from a string. -/
def trimString (s : String) : String :=
  String.mk (((s.data.dropWhile Char.isWhitespace).reverse.dropWhile Char.isWhitespace).reverse)

/-- `x.trim()` as applied by `trimmed` (only ever reached on string values,
since the `string()` guard excludes everything else; on a non-string the
model returns the value unchanged, a case the guard makes unreachable). -/
def jsTrim : JSValue → JSValue
  | .str s => .str (trimString s)
  | v => v

/-- `trimmed(struct)` of `src/structs/coercions.ts`: wraps with the
`string()` guard and trims leading/trailing whitespace from matching
strings. -/
def trimmed (struct : Struct) : Struct :=
  coerce struct string (fun x => jsTrim x)

/-- A validation failure record: location `path` inside the input, the
failing `value`, the expected `type` tag, the `branch` of ancestor values
from the root down to and including the failing value, and an optional
free-form `reason`. -/
structure Failure where
  path : List String
  value : JSValue
  type : String
  branch : List JSValue
  reason : Option String := none

/-- Modelled from the spec: the root-level validation entry of
`src/struct.ts` (not in the source tree). Per the spec's path-tracking
protocol, a failure at the root of the input reports an empty `path`, the
failing input as `value`, the struct's `type` tag, and a `branch`
consisting of the ancestor values down to and including the failing value,
which at the root is the one-element sequence holding the input. -/
def validateRoot (struct : Struct) (value : JSValue) : Option Failure :=
  if struct.validator value then none
  else some { path := [], value := value, type := struct.type, branch := [value] }

/-- A base struct with the default identity coercer and an always-true
validator, used to instantiate the theorems at concrete inputs. -/
def anyStruct : Struct :=
  { type := "any", schema := .undef, validator := fun _ => true }

/-- A transform appending `"a"` to a string, used to observe the order in
which layered coercions apply their transforms. -/
def appendA : JSValue → JSValue := fun v =>
  match v with
  | .str s => .str (s ++ "a")
  | w => w

/-- A transform appending `"b"` to a string, used to observe the order in
which layered coercions apply their transforms. -/
def appendB : JSValue → JSValue := fun v =>
  match v with
  | .str s => .str (s ++ "b")
  | w => w

/-- A concrete object struct whose schema declares the keys `x` and `y`
(the nested child structs are opaque placeholders), used to instantiate
the masking theorems at concrete inputs. -/
def xyStruct : Struct :=
  { type := "object",
    schema := .obj [("x", .bool true), ("y", .bool true)],
    validator := fun _ => true }

/-! ## Association-list lemmas -/

theorem getKey_setKey_self (l : List (String × JSValue)) (key : String) (v : JSValue) :
    getKey (setKey l key v) key = v := by
  induction l with
  | nil => simp [setKey, getKey]
  | cons p rest ih =>
    obtain ⟨k, w⟩ := p
    cases h : (k == key) <;> simp [setKey, getKey, h, ih]

theorem getKey_setKey_of_ne {key k2 : String} (h : (key == k2) = false)
    (l : List (String × JSValue)) (v : JSValue) :
    getKey (setKey l key v) k2 = getKey l k2 := by
  induction l with
  | nil => simp [setKey, getKey, h]
  | cons p rest ih =>
    obtain ⟨k, w⟩ := p
    cases h2 : (k == key) with
    | true =>
      have hk : k = key := by simpa using h2
      subst hk
      simp [setKey, getKey, h, ih]
    | false => simp [setKey, getKey, h2, ih]

theorem hasKeyList_setKey_of_ne {key k2 : String} (h : (key == k2) = false)
    (l : List (String × JSValue)) (v : JSValue) :
    hasKeyList (setKey l key v) k2 = hasKeyList l k2 := by
  induction l with
  | nil =>
    simp only [setKey, hasKeyList, List.any_cons, List.any_nil, Bool.or_false]
    exact h
  | cons p rest ih =>
    obtain ⟨k, w⟩ := p
    cases h2 : (k == key) with
    | true =>
      have hkk : k = key := by simpa using h2
      subst hkk
      simp [setKey, hasKeyList]
    | false =>
      have ih2 : ((setKey rest key v).any fun p => p.1 == k2)
          = (rest.any fun p => p.1 == k2) := by
        simpa [hasKeyList] using ih
      simp [setKey, hasKeyList, h2, ih2]

theorem setKey_append_of_not_has {l : List (String × JSValue)} {key : String}
    (h : hasKeyList l key = false) (v : JSValue) :
    setKey l key v = l ++ [(key, v)] := by
  induction l with
  | nil => simp [setKey]
  | cons p rest ih =>
    obtain ⟨k, w⟩ := p
    simp only [hasKeyList, List.any_cons, Bool.or_eq_false_iff] at h
    simp [setKey, h.1, ih (by simpa [hasKeyList] using h.2)]

/-! ## Loop characterizations -/

theorem getKey_fst_defaultedLoop (f : List (String × JSValue)) (l : List (String × JSValue))
    (ret : List (String × JSValue)) (c : Bool) (k : String) :
    getKey (defaultedLoop f ret l c).1 k =
      if (getKey ret k).isUndefined && hasKeyList l k then getKey f k else getKey ret k := by
  induction l generalizing ret c with
  | nil => simp [defaultedLoop, hasKeyList]
  | cons p rest ih =>
    obtain ⟨key, v⟩ := p
    cases hu : (getKey ret key).isUndefined with
    | false =>
      rw [defaultedLoop, hu]
      simp only [Bool.false_eq_true, if_false, ih]
      cases hk : (key == k) with
      | true =>
        have hkk : key = k := by simpa using hk
        subst hkk
        simp [hasKeyList, hu]
      | false =>
        simp only [hasKeyList, List.any_cons]
        simp only [hk, Bool.false_or]
    | true =>
      rw [defaultedLoop, hu]
      simp only [if_true, ih]
      cases hk : (key == k) with
      | true =>
        have hkk : key = k := by simpa using hk
        subst hkk
        simp [getKey_setKey_self, hasKeyList, hu]
      | false =>
        rw [getKey_setKey_of_ne hk]
        simp only [hasKeyList, List.any_cons]
        simp only [hk, Bool.false_or]

theorem snd_defaultedLoop (f : List (String × JSValue)) (ret : List (String × JSValue))
    (l : List (String × JSValue)) (c : Bool) :
    (defaultedLoop f ret l c).2 = (c || l.any (fun p => (getKey ret p.1).isUndefined)) := by
  induction l generalizing ret c with
  | nil => simp [defaultedLoop]
  | cons p rest ih =>
    obtain ⟨key, v⟩ := p
    cases hu : (getKey ret key).isUndefined with
    | false =>
      rw [defaultedLoop, hu]
      simp [ih, hu]
    | true =>
      rw [defaultedLoop, hu]
      simp [ih, hu]

theorem maskedLoop_eq_append (x : JSValue) (keys : List String)
    (ret : List (String × JSValue)) (hd : keys.Nodup)
    (h : ∀ k ∈ keys, hasKeyList ret k = false) :
    maskedLoop x ret keys =
      ret ++ (keys.filter (fun k => hasKey x k)).map (fun k => (k, getProp x k)) := by
  induction keys generalizing ret with
  | nil => simp [maskedLoop]
  | cons key rest ih =>
    have hcur : hasKeyList ret key = false := h key (List.mem_cons_self key rest)
    obtain ⟨hnotin, hrest⟩ := List.nodup_cons.mp hd
    cases hx : hasKey x key with
    | false =>
      rw [maskedLoop, hx]
      simp only [Bool.false_eq_true, if_false]
      rw [ih ret hrest (fun k hk => h k (List.mem_cons_of_mem key hk))]
      simp [hx]
    | true =>
      rw [maskedLoop, hx]
      simp only [if_true]
      rw [ih (setKey ret key (getProp x key)) hrest ?_]
      · rw [setKey_append_of_not_has hcur]
        simp [hx]
      · intro k hk
        have hne : (key == k) = false := by
          have hne2 : ¬ (key = k) := fun hkk => hnotin (by rw [hkk]; exact hk)
          simpa using hne2
        rw [hasKeyList_setKey_of_ne hne]
        exact h k (List.mem_cons_of_mem key hk)

/-- Claim C3: outside strict mode, when both the incoming value and the
resolved fallback are plain key-value records, the coercer of
`defaulted(S, f)` performs a shallow merge: when at least one fallback key
reads as `undefined` in the value, the result is a plain object in which
every key reads as the fallback's value if it was `undefined` or absent in
the value and declared by the fallback, and as the value's own value
otherwise; when no key needs filling, the original value is returned
unchanged. -/
theorem defaulted_shallow_merge (S : Struct) (fb : Fallback)
    (fs xs : List (String × JSValue)) (k : String)
    (hS : S.coercer = fun v => v) (hf : resolveFallback fb = JSValue.obj fs) :
    (fs.any (fun p => (getKey xs p.1).isUndefined) = true →
      isPlainObject ((defaulted S fb ⟨false⟩).coercer (JSValue.obj xs)) = true
      ∧ getKey (objFields ((defaulted S fb ⟨false⟩).coercer (JSValue.obj xs))) k =
          (if (getKey xs k).isUndefined && hasKeyList fs k then getKey fs k
           else getKey xs k))
    ∧ (fs.any (fun p => (getKey xs p.1).isUndefined) = false →
      (defaulted S fb ⟨false⟩).coercer (JSValue.obj xs) = JSValue.obj xs) := by
  have hc : (defaulted S fb ⟨false⟩).coercer (JSValue.obj xs)
      = (if (defaultedLoop fs xs fs false).2 then JSValue.obj (defaultedLoop fs xs fs false).1
         else JSValue.obj xs) := by
    simp [defaulted, coerce, is, unknown, hf, isPlainObject, JSValue.isUndefined, objFields, hS]
  have hp2 := snd_defaultedLoop fs xs fs false
  constructor
  · intro hany
    have h2 : (defaultedLoop fs xs fs false).2 = true := by
      rw [hp2, Bool.false_or]
      exact hany
    have hval : (defaulted S fb ⟨false⟩).coercer (JSValue.obj xs)
        = JSValue.obj (defaultedLoop fs xs fs false).1 := by
      rw [hc]
      simp only [h2, if_true]
    constructor
    · rw [hval]
      rfl
    · rw [hval]
      simp only [objFields]
      exact getKey_fst_defaultedLoop fs fs xs false k
  · intro hnone
    have h2 : (defaultedLoop fs xs fs false).2 = false := by
      rw [hp2, Bool.false_or]
      exact hnone
    rw [hc]
    simp only [h2, Bool.false_eq_true, if_false]

/-- Witness for claim C3 at concrete inputs: with fallback `{a:1, b:2}`,
input `{a:5}` merges into a record whose key `b` reads `2`, and input
`{a:5, b:7}` is returned unchanged. -/
theorem defaulted_shallow_merge_witness :
    getKey (objFields ((defaulted anyStruct
        (Fallback.value (JSValue.obj [("a", JSValue.num 1), ("b", JSValue.num 2)]))
        ⟨false⟩).coercer (JSValue.obj [("a", JSValue.num 5)]))) "b" = JSValue.num 2
    ∧ (defaulted anyStruct
        (Fallback.value (JSValue.obj [("a", JSValue.num 1), ("b", JSValue.num 2)]))
        ⟨false⟩).coercer (JSValue.obj [("a", JSValue.num 5), ("b", JSValue.num 7)])
        = JSValue.obj [("a", JSValue.num 5), ("b", JSValue.num 7)] := by
  constructor
  · have h := (defaulted_shallow_merge anyStruct
      (Fallback.value (JSValue.obj [("a", JSValue.num 1), ("b", JSValue.num 2)]))
      [("a", JSValue.num 1), ("b", JSValue.num 2)] [("a", JSValue.num 5)] "b" rfl rfl).1 rfl
    exact h.2.trans rfl
  · exact (defaulted_shallow_merge anyStruct
      (Fallback.value (JSValue.obj [("a", JSValue.num 1), ("b", JSValue.num 2)]))
      [("a", JSValue.num 1), ("b", JSValue.num 2)]
      [("a", JSValue.num 5), ("b", JSValue.num 7)] "b" rfl rfl).2 rfl

/-- Claim C7: the coercer of `masked(S)` returns the input unchanged when
`S`'s schema is not a non-null object or the input is not a non-null
object; otherwise it returns a new object listing exactly the schema keys
present in the input, in schema order, each mapped to its original value
from the input. -/
theorem masked_drops_undeclared_keys (S : Struct) (x : JSValue)
    (hS : S.coercer = fun v => v) (hnd : (jsKeys S.schema).Nodup) :
    (masked S).coercer x =
      if S.schema.typeof != "object" || S.schema.looseNull
          || x.typeof != "object" || x.looseNull then x
      else JSValue.obj (((jsKeys S.schema).filter (fun k => hasKey x k)).map
        (fun k => (k, getProp x k))) := by
  have hc : (masked S).coercer x =
      (if S.schema.typeof != "object" || S.schema.looseNull
          || x.typeof != "object" || x.looseNull then x
       else JSValue.obj (maskedLoop x [] (jsKeys S.schema))) := by
    simp [masked, coerce, is, unknown, hS]
  rw [hc]
  cases hguard : (S.schema.typeof != "object" || S.schema.looseNull
      || x.typeof != "object" || x.looseNull) with
  | true => simp only [hguard, if_true]
  | false =>
    simp only [hguard, Bool.false_eq_true, if_false]
    rw [maskedLoop_eq_append x (jsKeys S.schema) [] hnd (fun k hk => rfl)]
    simp

/-- Witness for claim C7 at a concrete input: with a schema declaring the
keys `x` and `y`, masking `{x:1, y:2, z:3}` yields `{x:1, y:2}`. -/
theorem masked_drops_undeclared_keys_witness :
    (masked xyStruct).coercer
        (JSValue.obj [("x", JSValue.num 1), ("y", JSValue.num 2), ("z", JSValue.num 3)])
      = JSValue.obj [("x", JSValue.num 1), ("y", JSValue.num 2)] := by
  have h := masked_drops_undeclared_keys xyStruct
    (JSValue.obj [("x", JSValue.num 1), ("y", JSValue.num 2), ("z", JSValue.num 3)])
    rfl (by decide)
  exact h.trans rfl

/-- Claim C10: for a struct whose schema is a non-null object, the coercer
of `masked(S)` does not pass an array input through: the result is a plain
(non-array) object listing exactly the schema keys present in the array,
so the array structure and any elements at non-schema indices are lost. -/
theorem masked_array_not_passthrough (S : Struct) (l : List JSValue)
    (hS : S.coercer = fun v => v) (hnd : (jsKeys S.schema).Nodup)
    (hobj : S.schema.typeof = "object") (hnn : S.schema.looseNull = false) :
    isPlainObject ((masked S).coercer (JSValue.arr l)) = true
    ∧ (masked S).coercer (JSValue.arr l) =
        JSValue.obj (((jsKeys S.schema).filter (fun k => hasKey (JSValue.arr l) k)).map
          (fun k => (k, getProp (JSValue.arr l) k))) := by
  have hc : (masked S).coercer (JSValue.arr l)
      = JSValue.obj (maskedLoop (JSValue.arr l) [] (jsKeys S.schema)) := by
    simp [masked, coerce, is, unknown, hS, hobj, hnn,
      show (JSValue.arr l).typeof = "object" from rfl,
      show (JSValue.arr l).looseNull = false from rfl]
  refine ⟨?_, ?_⟩
  · rw [hc]
    rfl
  · rw [hc, maskedLoop_eq_append (JSValue.arr l) (jsKeys S.schema) [] hnd (fun k hk => rfl)]
    simp

/-- Witness for claim C10 at a concrete input: with a schema declaring the
keys `x` and `y`, masking the array `[1, 2, 3]` yields the plain object
`{}`, losing the array structure and its elements. -/
theorem masked_array_not_passthrough_witness :
    (masked xyStruct).coercer (JSValue.arr [JSValue.num 1, JSValue.num 2, JSValue.num 3])
      = JSValue.obj [] := by
  have h := masked_array_not_passthrough xyStruct
    [JSValue.num 1, JSValue.num 2, JSValue.num 3] rfl (by decide) rfl rfl
  exact h.2.trans rfl

/-- Claim C2: the coercer of `coerce(S, c, t)` returns `S`'s original
coercer applied to `t v` when `v` validates against `c` via the
non-coercing check `is`, and `S`'s original coercer applied to `v`
unchanged otherwise; being a total function, it never rejects the input
or raises an error. -/
theorem coerce_conditional_transform (S condition : Struct) (t : JSValue → JSValue)
    (v : JSValue) :
    (is v condition = true → (coerce S condition t).coercer v = S.coercer (t v))
    ∧ (is v condition = false → (coerce S condition t).coercer v = S.coercer v) := by
  constructor <;> intro h <;> simp [coerce, h]

/-- Witness for claim C2 at concrete inputs: with the `string()` guard and
the trim transform, a string is transformed and a number passes through. -/
theorem coerce_conditional_transform_witness :
    (coerce anyStruct string jsTrim).coercer (JSValue.str " a ") = JSValue.str "a"
    ∧ (coerce anyStruct string jsTrim).coercer (JSValue.num 3) = JSValue.num 3 := by
  have h1 := (coerce_conditional_transform anyStruct string jsTrim (JSValue.str " a ")).1 rfl
  have h2 := (coerce_conditional_transform anyStruct string jsTrim (JSValue.num 3)).2 rfl
  exact ⟨h1.trans (congrArg JSValue.str (by decide)), h2.trans rfl⟩

/-- Claim C4: every combinator (`coerce`, `defaulted`, `masked`, `trimmed`)
returns a new struct whose `type`, `schema` and `validator` fields equal
those of the original struct, overriding exactly the `coercer`. -/
theorem combinators_override_only_coercer (S c : Struct) (t : JSValue → JSValue)
    (fb : Fallback) (o : DefaultedOptions) :
    ((coerce S c t).type = S.type ∧ (coerce S c t).schema = S.schema
      ∧ (coerce S c t).validator = S.validator)
    ∧ ((defaulted S fb o).type = S.type ∧ (defaulted S fb o).schema = S.schema
      ∧ (defaulted S fb o).validator = S.validator)
    ∧ ((masked S).type = S.type ∧ (masked S).schema = S.schema
      ∧ (masked S).validator = S.validator)
    ∧ ((trimmed S).type = S.type ∧ (trimmed S).schema = S.schema
      ∧ (trimmed S).validator = S.validator) :=
  ⟨⟨rfl, rfl, rfl⟩, ⟨rfl, rfl, rfl⟩, ⟨rfl, rfl, rfl⟩, ⟨rfl, rfl, rfl⟩⟩

/-- Claim C1 counterexample: layering two coercions with always-true guards
and string-appending transforms, the composed coercer of
`coerce(coerce(S, c1, t1), c2, t2)` on the input `""` produces `"ba"` — the
outer transform (append `"b"`) is applied to the input first and the inner
transform (append `"a"`) after — whereas applying the innermost-registered
transform first, as the claim states, would produce `"ab"`. -/
theorem coerce_compose_counterexample :
    (coerce (coerce anyStruct unknown appendA) unknown appendB).coercer (JSValue.str "")
      = JSValue.str "ba"
    ∧ appendB (appendA (JSValue.str "")) = JSValue.str "ab"
    ∧ JSValue.str "ba" ≠ JSValue.str "ab" := by
  refine ⟨rfl, rfl, ?_⟩
  intro h
  injection h with h2
  exact absurd h2 (by decide)

/-- Claim C1 (amended): the composed coercer of
`coerce(coerce(S, c1, t1), c2, t2)` applies the outermost-registered
transform first: the outer layer's condition `c2` is checked against the
raw input and its transform `t2` applied to it when it matches; the inner
layer's condition `c1` is then checked against the value as produced by
the outer layer, its transform `t1` applied when it matches, and the
result fed to `S`'s original coercer. -/
theorem coerce_compose_outer_first (S c1 c2 : Struct) (t1 t2 : JSValue → JSValue)
    (v : JSValue) :
    (coerce (coerce S c1 t1) c2 t2).coercer v =
      ((fun v2 => if is v2 c1 then S.coercer (t1 v2) else S.coercer v2)
        (if is v c2 then t2 v else v)) := by
  cases h : is v c2 <;> simp [coerce, h]

/-- Claim C5: the coercer of `defaulted(S, f)` returns the resolved
fallback whenever the incoming value is exactly `undefined`, in both
strict and non-strict mode; a function fallback is invoked (afresh, on
this very coercion call) to produce the value, and a plain fallback is
returned as is. -/
theorem defaulted_undefined_uses_fallback (S : Struct) (b : Bool) (f : Unit → JSValue)
    (w : JSValue) (hS : S.coercer = fun v => v) :
    (defaulted S (Fallback.fn f) ⟨b⟩).coercer JSValue.undef = f ()
    ∧ (defaulted S (Fallback.value w) ⟨b⟩).coercer JSValue.undef = w := by
  constructor <;>
    simp [defaulted, coerce, is, unknown, resolveFallback, JSValue.isUndefined, hS]

/-- Witness for claim C5 at concrete inputs: a function fallback in strict
mode and a value fallback in non-strict mode, both on `undefined`. -/
theorem defaulted_undefined_uses_fallback_witness :
    (defaulted anyStruct (Fallback.fn (fun _ => JSValue.str "fresh")) ⟨true⟩).coercer
        JSValue.undef = JSValue.str "fresh"
    ∧ (defaulted anyStruct (Fallback.value (JSValue.num 7)) ⟨false⟩).coercer
        JSValue.undef = JSValue.num 7 :=
  ⟨(defaulted_undefined_uses_fallback anyStruct true (fun _ => JSValue.str "fresh")
      (JSValue.num 7) rfl).1,
   (defaulted_undefined_uses_fallback anyStruct false (fun _ => JSValue.str "fresh")
      (JSValue.num 7) rfl).2⟩

/-- Claim C6: in strict mode the coercer of `defaulted(S, f, {strict: true})`
never merges: any incoming value other than exactly `undefined` is
returned unchanged. -/
theorem defaulted_strict_identity (S : Struct) (fb : Fallback) (v : JSValue)
    (hS : S.coercer = fun v => v) (hv : v.isUndefined = false) :
    (defaulted S fb ⟨true⟩).coercer v = v := by
  simp [defaulted, coerce, is, unknown, hv, hS]

/-- Witness for claim C6 at a concrete input: with fallback `{a: 1}` and
input `{}`, strict-mode defaulting yields `{}`. -/
theorem defaulted_strict_identity_witness :
    (defaulted anyStruct (Fallback.value (JSValue.obj [("a", JSValue.num 1)])) ⟨true⟩).coercer
      (JSValue.obj []) = JSValue.obj [] :=
  defaulted_strict_identity anyStruct (Fallback.value (JSValue.obj [("a", JSValue.num 1)]))
    (JSValue.obj []) rfl rfl

/-- Claim C8: validating `map(string(), number())` against the root-level
failing input `"invalid"` produces a failure record with an empty path,
the failing input as value, and a branch equal to the one-element sequence
holding that input. -/
theorem map_root_failure_record :
    validateRoot (map string number) (JSValue.str "invalid")
      = some { path := [], value := JSValue.str "invalid",
               type := "Map<string,number>", branch := [JSValue.str "invalid"] } := rfl

/-- Claim C9: the coercer of `trimmed(S)` maps any string input to the same
string with leading and trailing whitespace removed, and maps every
non-string input to itself unchanged, because the `string()` guard
excludes non-strings from the transform. -/
theorem trimmed_trims_strings_only (S : Struct) (hS : S.coercer = fun v => v) :
    (∀ s : String, (trimmed S).coercer (JSValue.str s) = JSValue.str (trimString s))
    ∧ (∀ v : JSValue, v.isString = false → (trimmed S).coercer v = v) := by
  constructor
  · intro s
    simp [trimmed, coerce, is, string, JSValue.isString, hS, jsTrim]
  · intro v hv
    simp [trimmed, coerce, is, string, hv, hS]

/-- Witness for claim C9 at concrete inputs: `"  hi  "` is trimmed to
`"hi"` and the number `42` passes through unchanged. -/
theorem trimmed_trims_strings_only_witness :
    (trimmed anyStruct).coercer (JSValue.str "  hi  ") = JSValue.str "hi"
    ∧ (trimmed anyStruct).coercer (JSValue.num 42) = JSValue.num 42 := by
  have h := trimmed_trims_strings_only anyStruct rfl
  exact ⟨(h.1 "  hi  ").trans (congrArg JSValue.str (by decide)),
         h.2 (JSValue.num 42) rfl⟩

end Superstruct
